import Mathlib

/-!
Verification of the GeoClear geometry engine
(`backend/python-engine/app/services/`): conflict detection, priority-based
displacement, and topology preservation for linear map features.

Coordinates are modelled as real numbers (the Python code computes with
floats; we idealise float arithmetic as exact real arithmetic).  WKT strings
are modelled at the character level over rational coordinates for the
parsing/serialisation claims.  Shapely primitives (centroid, distance,
`.wkt` output) are modelled by their mathematical definitions.
-/

open Classical

noncomputable section

/-- A planar point (or 2D vector). -/
abbrev Pt : Type := ℝ × ℝ

/-- Euclidean distance between two points (`shapely` `Point.distance`). -/
def ptDist (p q : Pt) : ℝ := Real.sqrt ((p.1 - q.1) ^ 2 + (p.2 - q.2) ^ 2)

/-- Magnitude of a 2D vector.  Embeds
`DisplacementCalculator.calculate_displacement_magnitude`
(`displacement_calculator.py` lines 187-198): `sqrt(dx**2 + dy**2)`. -/
def calculate_displacement_magnitude (v : Pt) : ℝ :=
  Real.sqrt (v.1 ^ 2 + v.2 ^ 2)

/-- Centroid of a polyline, as computed by `shapely` for a `LineString`:
the length-weighted average of the segment midpoints. -/
def lineCentroid (coords : List Pt) : Pt :=
  let segs := coords.zip coords.tail
  let lens := segs.map (fun s => ptDist s.1 s.2)
  let total := lens.sum
  let wx := (segs.map (fun s => ptDist s.1 s.2 * ((s.1.1 + s.2.1) / 2))).sum
  let wy := (segs.map (fun s => ptDist s.1 s.2 * ((s.1.2 + s.2.2) / 2))).sum
  (wx / total, wy / total)

/-- Distance between the centroids of two polylines (the "actual distance
between the two centroids" referred to by the repulsion-vector contract). -/
def centroidDist (l1 l2 : List Pt) : ℝ := ptDist (lineCentroid l1) (lineCentroid l2)

/-- The priority enumeration of `geometry_models.FeaturePriority`. -/
inductive FeaturePriority : Type
  | P1_HIGHWAY | P1_RAILWAY | P1_RIVER
  | P2_MAIN_ROAD
  | P3_LOCAL_ROAD | P3_STREET
  | P4_BUILDING | P4_PARK
  | P5_LABEL | P5_ICON | P5_OVERLAP_AREA
  | P2_ROAD
  deriving DecidableEq, Repr

/-- The numeric priority rank extracted by
`PrecisionOverlapDetector.get_conflict_priority`
(`precision_overlap_detector.py` line 535): the digit following `P` in the
enum's string value (`"P1_HIGHWAY" -> 1`, ..., `"P2_ROAD" -> 2`). -/
def rankOf : FeaturePriority → ℕ
  | .P1_HIGHWAY => 1
  | .P1_RAILWAY => 1
  | .P1_RIVER => 1
  | .P2_MAIN_ROAD => 2
  | .P3_LOCAL_ROAD => 3
  | .P3_STREET => 3
  | .P4_BUILDING => 4
  | .P4_PARK => 4
  | .P5_LABEL => 5
  | .P5_ICON => 5
  | .P5_OVERLAP_AREA => 5
  | .P2_ROAD => 2

/-- The `FEATURE_WIDTHS` table of `precision_overlap_detector.py`
(lines 16-40). -/
def widthOf : FeaturePriority → ℝ
  | .P1_HIGHWAY => 5.0
  | .P1_RAILWAY => 4.5
  | .P1_RIVER => 4.0
  | .P2_MAIN_ROAD => 3.5
  | .P3_LOCAL_ROAD => 3.0
  | .P3_STREET => 2.8
  | .P4_BUILDING => 2.5
  | .P4_PARK => 2.5
  | .P5_LABEL => 2.0
  | .P5_ICON => 2.0
  | .P5_OVERLAP_AREA => 1.5
  | .P2_ROAD => 3.0

/-- A parsed input feature: id, priority, and polyline coordinates (the
vertex sequence of the parsed WKT `LINESTRING`). -/
structure FeatureR : Type where
  id : String
  priority : FeaturePriority
  coords : List Pt

/-- Embeds `DisplacementCalculator.calculate_repulsion_vector`
(`displacement_calculator.py` lines 26-63): direction from the centroid of
`line1` to the centroid of `line2`; if the centroid distance is below
`0.01` the direction AND the distance are overwritten by `(1, 0)` and
`1.0`; the direction is normalised and scaled by
`repulsion_strength / (distance + 0.1)`. -/
def calculate_repulsion_vector (repulsion_strength : ℝ) (line1 line2 : List Pt) : Pt :=
  let c1 := lineCentroid line1
  let c2 := lineCentroid line2
  let dx := c2.1 - c1.1
  let dy := c2.2 - c1.2
  let d := Real.sqrt (dx ^ 2 + dy ^ 2)
  let t : ℝ × ℝ × ℝ := if d < 0.01 then (1.0, 0.0, 1.0) else (dx, dy, d)
  let fm := repulsion_strength / (t.2.2 + 0.1)
  (t.1 / t.2.2 * fm, t.2.1 / t.2.2 * fm)

/-- Embeds `DisplacementCalculator.calculate_displacement_for_pair`
(`displacement_calculator.py` lines 89-117): take the repulsion vector and,
when its magnitude is positive, rescale it to `displacement_distance`. -/
def calculate_displacement_for_pair (s : ℝ) (fixed moving : FeatureR)
    (displacement_distance : ℝ) : Pt :=
  let v := calculate_repulsion_vector s fixed.coords moving.coords
  let m := Real.sqrt (v.1 ^ 2 + v.2 ^ 2)
  if 0 < m then
    (v.1 * (displacement_distance / m), v.2 * (displacement_distance / m))
  else v

/-- Embeds `DisplacementCalculator.apply_displacement`
(`displacement_calculator.py` lines 65-87) at the coordinate level: every
vertex is translated by the same vector. -/
def apply_displacement (coords : List Pt) (v : Pt) : List Pt :=
  coords.map (fun p => (p.1 + v.1, p.2 + v.2))

/-- Embeds `DisplacementCalculator.accumulate_displacements`
(`displacement_calculator.py` lines 119-141): each feature's vectors are
summed componentwise (an empty list yields `(0, 0)`, which coincides with
the empty sum). -/
def accumulate_displacements (d : List (String × List Pt)) : List (String × Pt) :=
  d.map (fun e => (e.1, ((e.2.map Prod.fst).sum, (e.2.map Prod.snd).sum)))

/-- One entry of the `conflict_features` list handed to `displace_feature`
by `GeometryProcessor._calculate_displacements`: the fixed (other) feature
and the `clearance_violation` value. -/
structure ConflictF : Type where
  fixed : FeatureR
  clearance : ℝ

/-- Embeds `DisplacementCalculator.displace_feature`
(`displacement_calculator.py` lines 143-185): one displacement vector per
conflict, summed componentwise, and the translated geometry together with
the displacement history is returned. -/
def displace_feature (s : ℝ) (moving : FeatureR) (geom : List Pt)
    (conflicts : List ConflictF) : List Pt × List Pt :=
  if conflicts.isEmpty then (geom, [])
  else
    let vecs := conflicts.map (fun c =>
      calculate_displacement_for_pair s c.fixed moving c.clearance)
    let tdx := (vecs.map Prod.fst).sum
    let tdy := (vecs.map Prod.snd).sum
    (geom.map (fun p => (p.1 + tdx, p.2 + tdy)), vecs)

/-! ## Topology preserver (`topology_preserver.py`) -/

/-- The scan of the junction dictionary performed by
`TopologyPreserver.snap_endpoints_to_junctions` (lines 95-99): the loop
keeps overwriting `start_junction`/`end_junction`, so the LAST junction in
iteration order whose point lies strictly within `snap_tolerance` of the
endpoint wins (`None` when no junction matches). -/
def lastJunctionWithin (tol : ℝ) (p : Pt) (junctions : List Pt) : Option Pt :=
  junctions.foldl (fun acc j => if ptDist p j < tol then some j else acc) none

/-- Assignment to `new_coords[-1]` in Python: replace the last element. -/
def setLast (l : List Pt) (x : Pt) : List Pt := l.set (l.length - 1) x

/-- Embeds `TopologyPreserver.snap_endpoints_to_junctions`
(`topology_preserver.py` lines 71-112): if an ORIGINAL endpoint is within
`snap_tolerance` of a junction point, the corresponding endpoint of the
DISPLACED coordinate list is overwritten with the junction coordinate;
all other entries are kept.  Junctions are the values of the (insertion
ordered) junction dict. -/
def snap_endpoints_to_junctions (tol : ℝ) (displaced original : List Pt)
    (junctions : List Pt) : List Pt :=
  let os := original.headD (0, 0)
  let oe := original.getLastD (0, 0)
  let n1 := match lastJunctionWithin tol os junctions with
    | some j => displaced.set 0 j
    | none => displaced
  match lastJunctionWithin tol oe junctions with
  | some j => setLast n1 j
  | none => n1

/-- Python `round(x, 2)` (used by `TopologyPreserver._point_to_key`):
round half to even at two decimals, idealised to exact arithmetic. -/
def roundHalfEven (x : ℝ) : ℤ :=
  let f := Int.floor x
  if x - f < 1 / 2 then f
  else if (1 : ℝ) / 2 < x - f then f + 1
  else if Even f then f else f + 1

/-- Quantise one coordinate to two decimals (`_point_to_key`, line 63-65). -/
def round2 (x : ℝ) : ℝ := (roundHalfEven (100 * x) : ℝ) / 100

/-- `TopologyPreserver._point_to_key`: the quantised coordinate pair. -/
def pointKey (p : Pt) : Pt := (round2 p.1, round2 p.2)

/-- The endpoint registry of `TopologyPreserver.find_junctions`
(lines 36-54), flattened: for each feature its quantised start key then its
quantised end key (one entry per registered endpoint). -/
def endpointEntries (features : List FeatureR) : List Pt :=
  (features.map (fun f =>
    [pointKey (f.coords.headD (0, 0)), pointKey (f.coords.getLastD (0, 0))])).flatten

/-- Number of registered endpoint entries that share key `k`. -/
def countKey (l : List Pt) (k : Pt) : ℕ := l.countP (fun x => decide (x = k))

/-- Embeds `TopologyPreserver.find_junctions` (lines 23-61): the junction
keys are exactly the quantised endpoint coordinates shared by at least two
registered endpoint entries (the junction dict maps each such key to
`Point(key)`, i.e. the key itself). -/
def find_junctions (features : List FeatureR) : List Pt :=
  (endpointEntries features).dedup.filter
    (fun k => decide (2 ≤ countKey (endpointEntries features) k))

/-- Embeds `TopologyPreserver.validate_topology` (lines 142-176): for every
junction of the ORIGINAL features, count the displaced geometries with a
start or end point strictly within `snap_tolerance` of the junction point;
return `true` iff every junction retains at least two connections. -/
def validate_topology (tol : ℝ) (orig : List FeatureR)
    (displaced : List (List Pt)) : Bool :=
  (find_junctions orig).all (fun jp =>
    decide (2 ≤ displaced.countP (fun g =>
      decide (ptDist (g.headD (0, 0)) jp < tol ∨ ptDist (g.getLastD (0, 0)) jp < tol))))

/-! ## Conflict records and priority resolution -/

/-- The slice of the conflict dictionary built by
`PrecisionOverlapDetector.detect_all_conflicts` that the displacement stage
consumes: `feature_pair` and `feature_priorities`.  The Python record
stores the priorities as their enum STRING values; `get_conflict_priority`
reads only the digit after `P`, which `rankOf` extracts. -/
structure Overlap : Type where
  pair : String × String
  pri : FeaturePriority × FeaturePriority
  deriving DecidableEq

/-- Embeds `PrecisionOverlapDetector.get_conflict_priority`
(`precision_overlap_detector.py` lines 516-548): the id of the feature to
displace — the member of the pair with the numerically larger priority
rank; on equal ranks the second id of the pair. -/
def get_conflict_priority (o : Overlap) : String :=
  if rankOf o.pri.1 < rankOf o.pri.2 then o.pair.2
  else if rankOf o.pri.2 < rankOf o.pri.1 then o.pair.1
  else o.pair.2

/-! ## Orchestrator (`geometry_processor.py`) -/

/-- The `feature_map` lookup of `_calculate_displacements` (line 118/150).
In Python a missing id would raise `KeyError`; the claims only concern
well-formed conflict sets whose ids are present, where the default is
never taken. -/
def findFeature (parsed : List FeatureR) (fid : String) : FeatureR :=
  (parsed.find? (fun f => f.id == fid)).getD ⟨fid, .P5_LABEL, []⟩

/-- One per-feature entry of the dictionary returned by
`GeometryProcessor._calculate_displacements` (lines 178-197). -/
structure DispResult : Type where
  id : String
  original : List Pt
  displaced : List Pt
  wasDisplaced : Bool
  vector : Pt
  magnitude : ℝ
  conflicts : List Overlap

/-- The body of the per-feature loop of
`GeometryProcessor._calculate_displacements` (lines 133-197): a feature is
displaced iff it is the `get_conflict_priority` mover of at least one
conflict; its conflict list is displaced through
`displace_feature` (with `clearance_violation = min_clearance`, line 155)
and snapped by `preserve_connectivity`, which is exactly
`snap_endpoints_to_junctions` with `snap_tolerance = 0.1`
(`geometry_processor.py` line 46, `topology_preserver.py` lines 114-140).
Otherwise the feature keeps its original geometry and is reported
undisplaced. -/
def calcDispOne (s mc : ℝ) (parsed : List FeatureR) (overlaps : List Overlap)
    (junctions : List Pt) (f : FeatureR) : DispResult :=
  let conflicts := overlaps.filter (fun o => get_conflict_priority o == f.id)
  if conflicts.isEmpty then
    ⟨f.id, f.coords, f.coords, false, (0, 0), 0, []⟩
  else
    let conflictFeatures := conflicts.map (fun o =>
      let otherId := if o.pair.1 == f.id then o.pair.2 else o.pair.1
      ConflictF.mk (findFeature parsed otherId) mc)
    let dh := displace_feature s f f.coords conflictFeatures
    let finalGeom := snap_endpoints_to_junctions 0.1 dh.1 f.coords junctions
    let tdx := (dh.2.map Prod.fst).sum
    let tdy := (dh.2.map Prod.snd).sum
    ⟨f.id, f.coords, finalGeom, true, (tdx, tdy),
      Real.sqrt (tdx ^ 2 + tdy ^ 2), conflicts⟩

/-- Embeds `GeometryProcessor._calculate_displacements`
(`geometry_processor.py` lines 105-199), producing one result per parsed
feature in input order. -/
def calculate_displacements (s mc : ℝ) (parsed : List FeatureR)
    (overlaps : List Overlap) (junctions : List Pt) : List DispResult :=
  parsed.map (calcDispOne s mc parsed overlaps junctions)

/-! ## Parallel-conflict check (`precision_overlap_detector.py` 215-266) -/

/-- `numpy.arctan2 y x`: the angle of the vector `(x, y)` in `(-pi, pi]`
(signed-zero float distinctions are not modelled; `arctan2 0 0 = 0`). -/
def atan2 (y x : ℝ) : ℝ :=
  if 0 < x then Real.arctan (y / x)
  else if x < 0 then
    if 0 ≤ y then Real.arctan (y / x) + Real.pi
    else Real.arctan (y / x) - Real.pi
  else
    if 0 < y then Real.pi / 2
    else if y < 0 then -(Real.pi / 2)
    else 0

/-- The `get_orientation` helper of `check_parallel_conflict`
(lines 241-244): bearing, in degrees, of the vector from the first to the
last vertex. -/
def get_orientation (coords : List Pt) : ℝ :=
  let p0 := coords.headD (0, 0)
  let pn := coords.getLastD (0, 0)
  180 / Real.pi * atan2 (pn.2 - p0.2) (pn.1 - p0.1)

/-- Points of the closed segment from `a` to `b`. -/
def onSegment (a b p : Pt) : Prop :=
  ∃ t : ℝ, 0 ≤ t ∧ t ≤ 1 ∧ p = (a.1 + t * (b.1 - a.1), a.2 + t * (b.2 - a.2))

/-- The point set traced by a polyline (union of its segments). -/
def pathOf (coords : List Pt) : Set Pt :=
  {p | ∃ s ∈ coords.zip coords.tail, onSegment s.1 s.2 p}

/-- `shapely` `LineString.distance`: the minimum Euclidean distance between
the two polylines, modelled as the infimum of pointwise distances
(`PrecisionOverlapDetector.calculate_minimum_distance`, lines 113-124). -/
def lineDist (c1 c2 : List Pt) : ℝ :=
  sInf {d : ℝ | ∃ p ∈ pathOf c1, ∃ q ∈ pathOf c2, d = ptDist p q}

/-- The required clearance used by the proximity and parallel checks
(lines 174-176, 259-261): half width of each feature plus `min_clearance`. -/
def required_clearance (mc : ℝ) (f1 f2 : FeatureR) : ℝ :=
  widthOf f1.priority / 2 + widthOf f2.priority / 2 + mc

/-- Embeds `PrecisionOverlapDetector.check_parallel_conflict`
(`precision_overlap_detector.py` lines 215-266) with the default
`angle_threshold = 15.0`: returns
`(has_conflict, angle_difference, parallel_distance)`.  The angle
difference is `min(|a1 - a2|, 180 - |a1 - a2|)`; the check fires iff that
value is at most 15 and the minimum centerline distance is strictly below
the required clearance. -/
def check_parallel_conflict (mc : ℝ) (f1 f2 : FeatureR) : Prop × ℝ × ℝ :=
  if f1.coords.length < 2 ∨ f2.coords.length < 2 then (False, 0, 0)
  else
    let a1 := get_orientation f1.coords
    let a2 := get_orientation f2.coords
    let ad0 := |a1 - a2|
    let ad := min ad0 (180 - ad0)
    if ad ≤ 15 then
      if lineDist f1.coords f2.coords < required_clearance mc f1 f2 then
        (True, ad, lineDist f1.coords f2.coords)
      else (False, ad, 0)
    else (False, ad, 0)

/-! ## The unused second pipeline (`geometry_engine.py`), steps 4-7 -/

/-- Endpoint role recorded by `TopologyValidator.find_junctions`. -/
inductive EndRole : Type
  | startRole
  | endRole
  deriving DecidableEq, Repr

/-- One junction entry of `TopologyValidator.find_junctions`: the junction
point and the `(feature_id, role)` pairs connected there. -/
structure VJunction : Type where
  point : Pt
  connected : List (String × EndRole)

/-- The dict comprehension of
`TopologyValidator.snap_endpoints_to_junctions` (line ~95):
`{fid: pos for fid, pos in connected_features}` — the LAST entry for a
given id wins. -/
def lookupRole (entries : List (String × EndRole)) (fid : String) : Option EndRole :=
  entries.foldl (fun acc e => if e.1 == fid then some e.2 else acc) none

/-- Embeds `TopologyValidator.snap_endpoints_to_junctions`: for every
junction listing the feature, overwrite the start or end coordinate with
the junction point. -/
def vsnap (junctions : List VJunction) (fid : String) (coords : List Pt) : List Pt :=
  junctions.foldl (fun cs j =>
    match lookupRole j.connected fid with
    | some .startRole => cs.set 0 j.point
    | some .endRole => setLast cs j.point
    | none => cs) coords

/-- `GeometryEngine.process_geometry` steps 4-6
(`geometry_engine.py` lines 110-129), parameterised by the
`displacement_vectors` dict produced in step 3: accumulate each feature's
vectors, keep only those with `|dx| > 0.001 or |dy| > 0.001`, translate
the feature's geometry and snap its endpoints.  The result models the
`corrected_wkts` dict. -/
def engineCorrected (features : List FeatureR) (dvecs : List (String × List Pt))
    (junctions : List VJunction) : List (String × List Pt) :=
  (accumulate_displacements dvecs).filterMap (fun e =>
    if 0.001 < |e.2.1| ∨ 0.001 < |e.2.2| then
      some (e.1, vsnap junctions e.1
        (apply_displacement (findFeature features e.1).coords e.2))
    else none)

/-- `GeometryEngine.process_geometry` step 7 (lines 131-153) for one
feature: `was_displaced = feature.id in corrected_wkts` and
`corrected_wkt = corrected_wkts.get(feature.id, feature.wkt)`. -/
def engineResultFor (features : List FeatureR) (dvecs : List (String × List Pt))
    (junctions : List VJunction) (f : FeatureR) : Bool × List Pt :=
  match (engineCorrected features dvecs junctions).find? (fun e => e.1 == f.id) with
  | some e => (true, e.2)
  | none => (false, f.coords)

/-- The accumulated net vector of a feature (`final_displacements` lookup,
defaulting to `(0,0)` for features with no recorded conflicts). -/
def accVec (dvecs : List (String × List Pt)) (fid : String) : Pt :=
  (((accumulate_displacements dvecs).find? (fun e => e.1 == fid)).map Prod.snd).getD (0, 0)

/-! ## Detection loop structure (`precision_overlap_detector.py` 318-461)

The five individual strategies depend on shapely polygon buffering and
intersection areas; the loop structure of `detect_all_conflicts` and
`detect_overlaps` is embedded with the five per-pair strategy outcomes
abstracted as boolean-valued parameters. -/

/-- The five detection-strategy outcomes, abstracted per feature pair
(buffer overlap, centerline proximity, crossing, parallel, endpoint). -/
structure Checks : Type where
  bufferOverlap : FeatureR → FeatureR → Bool
  proximity : FeatureR → FeatureR → Bool
  crossing : FeatureR → FeatureR → Bool
  parallel : FeatureR → FeatureR → Bool
  endpoint : FeatureR → FeatureR → Bool

/-- Embeds `PrecisionOverlapDetector.detect_all_conflicts` (lines 318-401):
the conflict record for a pair together with its `has_any_conflict` flag,
which is set iff at least one of the five strategies fired. -/
def detect_all_conflicts (k : Checks) (f1 f2 : FeatureR) : Overlap × Bool :=
  (⟨(f1.id, f2.id), (f1.priority, f2.priority)⟩,
    k.bufferOverlap f1 f2 || k.proximity f1 f2 || k.crossing f1 f2 ||
    k.parallel f1 f2 || k.endpoint f1 f2)

/-- All unordered pairs `(i, j)` with `i < j`, in the loop order of
`detect_overlaps` (lines 430-441). -/
def pairsOf : List FeatureR → List (FeatureR × FeatureR)
  | [] => []
  | x :: xs => xs.map (fun y => (x, y)) ++ pairsOf xs

/-- Embeds `PrecisionOverlapDetector.detect_overlaps` (lines 403-461): a
pair contributes a conflict record iff `has_any_conflict` is set. -/
def detect_overlaps (k : Checks) (features : List FeatureR) : List Overlap :=
  (pairsOf features).filterMap (fun p =>
    let r := detect_all_conflicts k p.1 p.2
    if r.2 then some r.1 else none)

end

/-! ## WKT strings (`PrecisionOverlapDetector.parse_wkt` and shapely I/O)

`parse_wkt` (`precision_overlap_detector.py` lines 71-90) defers to
`shapely.wkt.loads` and then checks `isinstance(geom, LineString)`.  The
accepted grammar is modelled over exact rationals:
`LINESTRING` (case-insensitive) followed either by the keyword `EMPTY`
(accepted by GEOS, yielding an empty line) or by a parenthesised,
comma-separated list of `x y` pairs; GEOS rejects a one-point coordinate
array ("point array must contain 0 or >1 elements").  Numbers are
modelled as optionally signed decimal literals.  Serialisation models the
normalised output of `LineString.wkt`: the tag, a space, and trimmed
decimal numbers. -/

/-- Drop leading whitespace. -/
def skipSpaces : List Char → List Char
  | [] => []
  | c :: rest =>
    if c = ' ' ∨ c = '\t' ∨ c = '\n' ∨ c = '\r' then skipSpaces rest else c :: rest

/-- Numeric value of a digit list (most significant first). -/
def digitsToNat (ds : List Char) : ℕ :=
  ds.foldl (fun a c => a * 10 + (c.toNat - 48)) 0

/-- Parse one optionally signed decimal literal, returning its value and
the unconsumed input. -/
def parseNumber (l : List Char) : Option (ℚ × List Char) :=
  let sl : ℚ × List Char :=
    match l with
    | '-' :: r => (-1, r)
    | '+' :: r => (1, r)
    | r => (1, r)
  let intDigits := sl.2.takeWhile Char.isDigit
  let l2 := sl.2.dropWhile Char.isDigit
  if intDigits.isEmpty then none
  else
    match l2 with
    | '.' :: r =>
      let fds := r.takeWhile Char.isDigit
      let l3 := r.dropWhile Char.isDigit
      some (sl.1 * ((digitsToNat intDigits : ℚ) +
        (digitsToNat fds : ℚ) / 10 ^ fds.length), l3)
    | _ => some (sl.1 * (digitsToNat intDigits : ℚ), l2)

/-- Parse the comma-separated coordinate list up to and including the
closing parenthesis (fuel-indexed recursion). -/
def parseCoords : ℕ → List Char → Option (List (ℚ × ℚ) × List Char)
  | 0, _ => none
  | fuel + 1, l =>
    match parseNumber (skipSpaces l) with
    | none => none
    | some (x, r1) =>
      match parseNumber (skipSpaces r1) with
      | none => none
      | some (y, r2) =>
        match skipSpaces r2 with
        | ',' :: rest =>
          match parseCoords fuel rest with
          | some (cs, r4) => some ((x, y) :: cs, r4)
          | none => none
        | ')' :: rest => some ([(x, y)], rest)
        | _ => none

/-- Embeds `PrecisionOverlapDetector.parse_wkt`: parse a WKT string to the
coordinate list of a `LINESTRING`, or fail with a `ValueError` message. -/
def parse_wkt (s : String) : Except String (List (ℚ × ℚ)) :=
  let l := skipSpaces s.toList
  let tag := (l.takeWhile Char.isAlpha).map Char.toUpper
  let rest := skipSpaces (l.dropWhile Char.isAlpha)
  if tag = "LINESTRING".toList then
    match rest with
    | '(' :: r =>
      match parseCoords (r.length + 1) r with
      | some (cs, tail0) =>
        if (skipSpaces tail0).isEmpty then
          if cs.length = 1 then
            Except.error "Invalid WKT: point array must contain 0 or more than 1 elements"
          else Except.ok cs
        else Except.error "Invalid WKT: trailing characters"
      | none => Except.error "Invalid WKT: ParseException"
    | _ =>
      let kw := (rest.takeWhile Char.isAlpha).map Char.toUpper
      let rest2 := skipSpaces (rest.dropWhile Char.isAlpha)
      if kw = "EMPTY".toList ∧ rest2.isEmpty then Except.ok []
      else Except.error "Invalid WKT: ParseException"
  else Except.error "Invalid WKT: expected LINESTRING"

/-- Decimal digits of a natural number (fuel-indexed). -/
def natDigits : ℕ → ℕ → List Char
  | 0, _ => []
  | _ + 1, 0 => []
  | fuel + 1, n => natDigits fuel (n / 10) ++ [Char.ofNat (48 + n % 10)]

/-- Decimal rendering of a natural number. -/
def natToString (n : ℕ) : String :=
  if n = 0 then "0" else String.mk (natDigits (n + 1) n)

/-- Decimal rendering of the fractional part of a rational in `[0, 1)`
with a finite decimal expansion (fuel-indexed; trailing zeros trimmed
because the expansion stops at zero). -/
def fracDigits : ℕ → ℚ → List Char
  | 0, _ => []
  | fuel + 1, q =>
    if q = 0 then []
    else
      let q10 := q * 10
      let d := (Int.floor q10).toNat
      Char.ofNat (48 + d) :: fracDigits fuel (q10 - Int.floor q10)

/-- Trimmed decimal rendering of a rational number, as produced by the
GEOS WKT writer for the coordinate values handled here. -/
def ratToString (q : ℚ) : String :=
  let sgn := if q < 0 then "-" else ""
  let a := |q|
  let ip := (Int.floor a).toNat
  let fracCs := fracDigits 40 (a - Int.floor a)
  if fracCs.isEmpty then sgn ++ natToString ip
  else sgn ++ natToString ip ++ "." ++ String.mk fracCs

/-- The normalised WKT serialisation of a coordinate list, as produced by
`shapely` `LineString.wkt` (used by `_build_results`, line 211): the tag,
one space, and the parenthesised coordinate list. -/
def wktOut (cs : List (ℚ × ℚ)) : String :=
  if cs.isEmpty then "LINESTRING EMPTY"
  else "LINESTRING (" ++
    String.intercalate ", " (cs.map (fun c => ratToString c.1 ++ " " ++ ratToString c.2))
    ++ ")"

/-- Embeds `GeometryProcessor._parse_features`
(`geometry_processor.py` lines 94-103): parse every feature in order; the
first `ValueError` raised by `parse_wkt` propagates and aborts the whole
batch. -/
def parse_features (features : List (String × String)) :
    Except String (List (String × List (ℚ × ℚ))) :=
  match features with
  | [] => Except.ok []
  | f :: rest =>
    match parse_wkt f.2 with
    | Except.error e => Except.error e
    | Except.ok cs =>
      match parse_features rest with
      | Except.error e => Except.error e
      | Except.ok others => Except.ok ((f.1, cs) :: others)

/-- The control-flow skeleton of `GeometryProcessor.process_geometries`
(`geometry_processor.py` lines 29-92): features are parsed FIRST
(line 50); every later stage (detection, displacement, result assembly) is
abstracted as `rest` and runs only when every feature parsed.  A parse
error therefore propagates to the caller before any detection or
displacement computation, and no result list is produced. -/
def process_geometries {α : Type} (rest : List (String × List (ℚ × ℚ)) → α)
    (features : List (String × String)) : Except String α :=
  (parse_features features).map rest

/-- Interpret exact rational coordinates as real coordinates (floats are
idealised as reals throughout the geometric stages). -/
noncomputable def castPoly (cs : List (ℚ × ℚ)) : List Pt :=
  cs.map (fun c => ((c.1 : ℝ), (c.2 : ℝ)))

/-! ## Concrete instances used to exercise the definitions -/

noncomputable section

/-- A highway along `y = 0`. -/
def featA : FeatureR := ⟨"A", .P1_HIGHWAY, [(0, 0), (10, 0)]⟩

/-- A main road along `y = 2`, parallel to `featA`. -/
def featB : FeatureR := ⟨"B", .P2_MAIN_ROAD, [(0, 2), (10, 2)]⟩

/-- A local road along `y = 4`, parallel to `featB`. -/
def featC : FeatureR := ⟨"C", .P3_LOCAL_ROAD, [(0, 4), (10, 4)]⟩

/-- Conflict record for the pair `(A, B)`. -/
def ovAB : Overlap := ⟨("A", "B"), (.P1_HIGHWAY, .P2_MAIN_ROAD)⟩

/-- Conflict record for the pair `(A, C)`. -/
def ovAC : Overlap := ⟨("A", "C"), (.P1_HIGHWAY, .P3_LOCAL_ROAD)⟩

/-- Conflict record for the pair `(B, C)`: `B` is the higher-priority
feature of this conflict. -/
def ovBC : Overlap := ⟨("B", "C"), (.P2_MAIN_ROAD, .P3_LOCAL_ROAD)⟩

/-- A conflict record with the LOWER-priority feature stored first: the
pair `(B, A)` with priorities `(P2, P1)`, exercising the
`priority2 < priority1` branch of `get_conflict_priority`. -/
def ovBA : Overlap := ⟨("B", "A"), (.P2_MAIN_ROAD, .P1_HIGHWAY)⟩

/-- The three-feature chain scenario. -/
def parsedABC : List FeatureR := [featA, featB, featC]

/-- Its full conflict set in detector pair order. -/
def ovsABC : List Overlap := [ovAB, ovAC, ovBC]

/-- A horizontal two-vertex line used for the repulsion fallback case. -/
def lineP : List Pt := [(0, 0), (2, 0)]

/-- A polyline heading into the second quadrant (bearing 135 degrees). -/
def featP1 : FeatureR := ⟨"p1", .P1_HIGHWAY, [(0, 0), (-1, 1)]⟩

/-- A polyline heading into the third quadrant (bearing -135 degrees),
perpendicular to `featP1`. -/
def featP2 : FeatureR := ⟨"p2", .P2_MAIN_ROAD, [(0, 0), (-1, -1)]⟩

/-- A strategy record in which no detection strategy ever fires. -/
def noChecks : Checks :=
  ⟨fun _ _ => false, fun _ _ => false, fun _ _ => false,
   fun _ _ => false, fun _ _ => false⟩

/-- The single feature of the serialisation round-trip scenario: its input
WKT is `LINESTRING(0 0, 1 0)` (no space after the tag). -/
def featRT : FeatureR := ⟨"f1", .P5_LABEL, castPoly [(0, 0), (1, 0)]⟩

end

/-! ## Helper lemmas -/

lemma sqrt_eval {a b : ℝ} (hb : 0 ≤ b) (h : b ^ 2 = a) : Real.sqrt a = b := by
  subst h; exact Real.sqrt_sq hb

lemma sq_add_sq_pos {x y : ℝ} (h : ¬(x = 0 ∧ y = 0)) : 0 < x ^ 2 + y ^ 2 := by
  rcases not_and_or.mp h with hx | hy
  · exact add_pos_of_pos_of_nonneg
      ((sq_nonneg x).lt_of_ne (Ne.symm (pow_ne_zero 2 hx))) (sq_nonneg y)
  · exact add_pos_of_nonneg_of_pos (sq_nonneg x)
      ((sq_nonneg y).lt_of_ne (Ne.symm (pow_ne_zero 2 hy)))

lemma sqrt_scaled (x y a : ℝ) :
    Real.sqrt ((x * a) ^ 2 + (y * a) ^ 2) = Real.sqrt (x ^ 2 + y ^ 2) * |a| := by
  rw [show (x * a) ^ 2 + (y * a) ^ 2 = (x ^ 2 + y ^ 2) * a ^ 2 by ring,
    Real.sqrt_mul (by positivity), Real.sqrt_sq_eq_abs]

lemma ptDist_eval (x1 y1 x2 y2 : ℝ) :
    ptDist (x1, y1) (x2, y2) = Real.sqrt ((x1 - x2) ^ 2 + (y1 - y2) ^ 2) := rfl

lemma lineCentroid_pair (a b : Pt) (h : ptDist a b ≠ 0) :
    lineCentroid [a, b] = ((a.1 + b.1) / 2, (a.2 + b.2) / 2) := by
  simp only [lineCentroid, List.tail_cons, List.zip_cons_cons, List.zip_nil_right,
    List.map_cons, List.map_nil, List.sum_cons, List.sum_nil, add_zero]
  rw [Prod.ext_iff]
  constructor
  · simp only []
    rw [mul_comm, mul_div_assoc, div_self h, mul_one]
  · simp only []
    rw [mul_comm, mul_div_assoc, div_self h, mul_one]

lemma lineP_centroid : lineCentroid lineP = (1, 0) := by
  have h : ptDist ((0 : ℝ), (0 : ℝ)) ((2 : ℝ), (0 : ℝ)) = 2 := by
    rw [ptDist_eval]
    exact sqrt_eval (by norm_num) (by norm_num)
  rw [show lineP = [((0 : ℝ), (0 : ℝ)), ((2 : ℝ), (0 : ℝ))] from rfl,
    lineCentroid_pair _ _ (by rw [h]; norm_num)]
  norm_num

lemma centroidDist_sqrt (l1 l2 : List Pt) :
    centroidDist l1 l2 =
      Real.sqrt (((lineCentroid l2).1 - (lineCentroid l1).1) ^ 2 +
        ((lineCentroid l2).2 - (lineCentroid l1).2) ^ 2) := by
  rw [centroidDist, ptDist]
  congr 1
  ring

/-! ## Claim C5 -/

/-- C5: for every mover feature involved in conflicts `C1...Ck`, the net
displacement applied by `displace_feature` equals the componentwise vector
sum of the `k` individually computed per-conflict vectors (each produced
by `calculate_displacement_for_pair` for its conflict alone); no average,
normalisation or cap is applied after summation — every vertex is
translated by exactly that sum. -/
theorem claim_C5_superposition (s : ℝ) (moving : FeatureR) (geom : List Pt)
    (conflicts : List ConflictF) (hne : conflicts ≠ []) :
    (displace_feature s moving geom conflicts).2 =
      conflicts.map (fun c => calculate_displacement_for_pair s c.fixed moving c.clearance) ∧
    (displace_feature s moving geom conflicts).1 =
      geom.map (fun p =>
        (p.1 + (((displace_feature s moving geom conflicts).2).map Prod.fst).sum,
         p.2 + (((displace_feature s moving geom conflicts).2).map Prod.snd).sum)) := by
  cases conflicts with
  | nil => exact absurd rfl hne
  | cons c cs =>
    rw [displace_feature]
    simp only [List.isEmpty_cons, Bool.false_eq_true, if_false]
    exact ⟨trivial, trivial⟩

/-- C5 witness: the superposition theorem applied to a concrete mover with
one conflict. -/
theorem claim_C5_witness :
    (displace_feature 1 featB featB.coords [ConflictF.mk featA 2]).2 =
      [ConflictF.mk featA 2].map
        (fun c => calculate_displacement_for_pair 1 c.fixed featB c.clearance) ∧
    (displace_feature 1 featB featB.coords [ConflictF.mk featA 2]).1 =
      featB.coords.map (fun p =>
        (p.1 + (((displace_feature 1 featB featB.coords [ConflictF.mk featA 2]).2).map
          Prod.fst).sum,
         p.2 + (((displace_feature 1 featB featB.coords [ConflictF.mk featA 2]).2).map
          Prod.snd).sum)) :=
  claim_C5_superposition 1 featB featB.coords [ConflictF.mk featA 2] (by simp)

/-! ## Claim C6 -/

/-- C6: for every fixed/mover pair and every nonnegative
`requiredDistance`, the per-conflict displacement vector has Euclidean
magnitude exactly `requiredDistance` whenever the underlying repulsion
vector is nonzero; and the operation returns `(0, 0)` rather than failing
when `requiredDistance` is `0` or the repulsion magnitude is `0`. -/
theorem claim_C6_pair_magnitude (s D : ℝ) (fixed moving : FeatureR) (hD : 0 ≤ D) :
    (calculate_repulsion_vector s fixed.coords moving.coords ≠ (0, 0) →
      calculate_displacement_magnitude (calculate_displacement_for_pair s fixed moving D) = D) ∧
    (D = 0 → calculate_displacement_for_pair s fixed moving D = (0, 0)) ∧
    (calculate_displacement_magnitude (calculate_repulsion_vector s fixed.coords moving.coords) = 0 →
      calculate_displacement_for_pair s fixed moving D = (0, 0)) := by
  set v := calculate_repulsion_vector s fixed.coords moving.coords with hv
  refine ⟨?_, ?_, ?_⟩
  · intro hv0
    have hne : ¬(v.1 = 0 ∧ v.2 = 0) := by
      intro hand
      exact hv0 (Prod.ext_iff.mpr ⟨hand.1, hand.2⟩)
    have hpos : 0 < v.1 ^ 2 + v.2 ^ 2 := sq_add_sq_pos hne
    have hM : 0 < Real.sqrt (v.1 ^ 2 + v.2 ^ 2) := Real.sqrt_pos.mpr hpos
    rw [calculate_displacement_for_pair]
    simp only [← hv]
    rw [if_pos hM, calculate_displacement_magnitude]
    simp only []
    rw [sqrt_scaled, abs_of_nonneg (div_nonneg hD hM.le), mul_div_cancel₀ _ (ne_of_gt hM)]
  · intro hDz
    subst hDz
    rw [calculate_displacement_for_pair]
    simp only [← hv]
    by_cases hM : 0 < Real.sqrt (v.1 ^ 2 + v.2 ^ 2)
    · rw [if_pos hM]
      simp
    · rw [if_neg hM]
      have hz : v.1 ^ 2 + v.2 ^ 2 = 0 := by
        have h1 : Real.sqrt (v.1 ^ 2 + v.2 ^ 2) = 0 :=
          le_antisymm (not_lt.mp hM) (Real.sqrt_nonneg _)
        exact (Real.sqrt_eq_zero (by positivity)).mp h1
      have h1 : v.1 = 0 := by nlinarith [sq_nonneg v.1, sq_nonneg v.2]
      have h2 : v.2 = 0 := by nlinarith [sq_nonneg v.1, sq_nonneg v.2]
      exact Prod.ext_iff.mpr ⟨h1, h2⟩
  · intro hmag
    rw [calculate_displacement_magnitude] at hmag
    have hz : v.1 ^ 2 + v.2 ^ 2 = 0 := (Real.sqrt_eq_zero (by positivity)).mp hmag
    have h1 : v.1 = 0 := by nlinarith [sq_nonneg v.1, sq_nonneg v.2]
    have h2 : v.2 = 0 := by nlinarith [sq_nonneg v.1, sq_nonneg v.2]
    rw [calculate_displacement_for_pair]
    simp only [← hv]
    rw [if_neg]
    · exact Prod.ext_iff.mpr ⟨h1, h2⟩
    · rw [h1, h2]
      simp

/-- C6 witness: the pair-magnitude theorem at a concrete fixed/mover pair
and `requiredDistance = 2`. -/
theorem claim_C6_witness :
    (calculate_repulsion_vector 1 featA.coords featB.coords ≠ (0, 0) →
      calculate_displacement_magnitude (calculate_displacement_for_pair 1 featA featB 2) = 2) ∧
    ((2 : ℝ) = 0 → calculate_displacement_for_pair 1 featA featB 2 = (0, 0)) ∧
    (calculate_displacement_magnitude (calculate_repulsion_vector 1 featA.coords featB.coords) = 0 →
      calculate_displacement_for_pair 1 featA featB 2 = (0, 0)) :=
  claim_C6_pair_magnitude 1 2 featA featB (by norm_num)

/-! ## Claim C7 -/

/-- C7 counterexample: for two identical lines the centroids coincide, the
fallback branch is taken, and the repulsion vector is `(10/11, 0)` — its
magnitude is `10/11 = s/1.1`, NOT `s/(centroidDistance + 0.1) = 1/0.1`;
the claim's magnitude formula fails in the fallback case because the code
overwrites the distance with `1.0` before computing the force magnitude
(`displacement_calculator.py` lines 51-54 and 61). -/
theorem claim_C7_counterexample :
    calculate_repulsion_vector 1 lineP lineP = (10 / 11, 0) ∧
    centroidDist lineP lineP = 0 ∧
    calculate_displacement_magnitude ((10 : ℝ) / 11, 0) = 10 / 11 ∧
    ((10 : ℝ) / 11) ≠ 1 / (0 + 0.1) := by
  have hc := lineP_centroid
  refine ⟨?_, ?_, ?_, by norm_num⟩
  · rw [calculate_repulsion_vector, hc]
    norm_num
  · rw [centroidDist, hc, ptDist_eval]
    norm_num
  · rw [calculate_displacement_magnitude]
    exact sqrt_eval (by norm_num) (by norm_num)

/-- C7 (amended): when the centroids are at least `0.01` apart, the
repulsion vector is the normalised centroid-to-centroid direction scaled
by `repulsionStrength / (centroidDistance + 0.1)`, and (for nonnegative
strength) its magnitude equals that value; when the centroids are within
`0.01` of each other the vector is instead exactly `(s / 1.1, 0)` — the
fallback overwrites the distance with `1.0`, so the magnitude formula of
the original claim does not apply there. -/
theorem claim_C7_amended (s : ℝ) (l1 l2 : List Pt) (hs : 0 ≤ s) :
    (0.01 ≤ centroidDist l1 l2 →
      calculate_repulsion_vector s l1 l2 =
        (((lineCentroid l2).1 - (lineCentroid l1).1) / centroidDist l1 l2 *
           (s / (centroidDist l1 l2 + 0.1)),
         ((lineCentroid l2).2 - (lineCentroid l1).2) / centroidDist l1 l2 *
           (s / (centroidDist l1 l2 + 0.1))) ∧
      calculate_displacement_magnitude (calculate_repulsion_vector s l1 l2) =
        s / (centroidDist l1 l2 + 0.1)) ∧
    (centroidDist l1 l2 < 0.01 →
      calculate_repulsion_vector s l1 l2 = (s / 1.1, 0)) := by
  have hd := centroidDist_sqrt l1 l2
  constructor
  · intro hge
    have hnlt : ¬(Real.sqrt (((lineCentroid l2).1 - (lineCentroid l1).1) ^ 2 +
        ((lineCentroid l2).2 - (lineCentroid l1).2) ^ 2) < 0.01) := by
      rw [← hd]
      exact not_lt.mpr hge
    have hdpos : 0 < centroidDist l1 l2 := lt_of_lt_of_le (by norm_num) hge
    have heq : calculate_repulsion_vector s l1 l2 =
        (((lineCentroid l2).1 - (lineCentroid l1).1) / centroidDist l1 l2 *
           (s / (centroidDist l1 l2 + 0.1)),
         ((lineCentroid l2).2 - (lineCentroid l1).2) / centroidDist l1 l2 *
           (s / (centroidDist l1 l2 + 0.1))) := by
      rw [calculate_repulsion_vector]
      simp only [if_neg hnlt]
      rw [← hd]
    refine ⟨heq, ?_⟩
    rw [heq, calculate_displacement_magnitude]
    simp only []
    have hrw : ∀ z : ℝ, z / centroidDist l1 l2 * (s / (centroidDist l1 l2 + 0.1)) =
        z * (s / (centroidDist l1 l2 + 0.1) / centroidDist l1 l2) := by
      intro z; ring
    rw [hrw, hrw, sqrt_scaled, ← hd]
    have hfne : 0 ≤ s / (centroidDist l1 l2 + 0.1) / centroidDist l1 l2 :=
      div_nonneg (div_nonneg hs (by linarith)) hdpos.le
    rw [abs_of_nonneg hfne]
    field_simp
    ring
  · intro hlt
    have hlt2 : Real.sqrt (((lineCentroid l2).1 - (lineCentroid l1).1) ^ 2 +
        ((lineCentroid l2).2 - (lineCentroid l1).2) ^ 2) < 0.01 := by
      rw [← hd]; exact hlt
    rw [calculate_repulsion_vector]
    simp only [if_pos hlt2]
    norm_num

/-- C7 witness: the amended repulsion theorem at strength `1` on the
coincident-centroid pair. -/
theorem claim_C7_witness :
    (0.01 ≤ centroidDist lineP lineP →
      calculate_repulsion_vector 1 lineP lineP =
        (((lineCentroid lineP).1 - (lineCentroid lineP).1) / centroidDist lineP lineP *
           (1 / (centroidDist lineP lineP + 0.1)),
         ((lineCentroid lineP).2 - (lineCentroid lineP).2) / centroidDist lineP lineP *
           (1 / (centroidDist lineP lineP + 0.1))) ∧
      calculate_displacement_magnitude (calculate_repulsion_vector 1 lineP lineP) =
        1 / (centroidDist lineP lineP + 0.1)) ∧
    (centroidDist lineP lineP < 0.01 →
      calculate_repulsion_vector 1 lineP lineP = (1 / 1.1, 0)) :=
  claim_C7_amended 1 lineP lineP (by norm_num)

/-! ## Claim C8 -/

lemma lastJW_main (tol : ℝ) (p j : Pt) :
    ∀ (l : List Pt) (acc : Option Pt), (acc = none ∨ acc = some j) →
      (j ∈ l ∨ acc = some j) → ptDist p j < tol →
      (∀ x ∈ l, ptDist p x < tol → x = j) →
      l.foldl (fun a y => if ptDist p y < tol then some y else a) acc = some j := by
  intro l
  induction l with
  | nil =>
    intro acc _ hmem _ _
    rcases hmem with h | h
    · cases h
    · simpa using h
  | cons x rest ih =>
    intro acc hacc hmem hlt huniq
    simp only [List.foldl_cons]
    by_cases hx : ptDist p x < tol
    · rw [if_pos hx]
      have hxj : x = j := huniq x (List.mem_cons_self x rest) hx
      subst hxj
      exact ih (some x) (Or.inr rfl) (Or.inr rfl) hlt
        (fun y hy hd => huniq y (List.mem_cons_of_mem _ hy) hd)
    · rw [if_neg hx]
      rcases hmem with hmem | hmem
      · rcases List.mem_cons.mp hmem with hj | hj
        · exact absurd (hj ▸ hlt) hx
        · exact ih acc hacc (Or.inl hj) hlt
            (fun y hy hd => huniq y (List.mem_cons_of_mem _ hy) hd)
      · exact ih acc hacc (Or.inr hmem) hlt
          (fun y hy hd => huniq y (List.mem_cons_of_mem _ hy) hd)

lemma lastJunctionWithin_eq {tol : ℝ} {p j : Pt} {l : List Pt}
    (hmem : j ∈ l) (hlt : ptDist p j < tol)
    (huniq : ∀ x ∈ l, ptDist p x < tol → x = j) :
    lastJunctionWithin tol p l = some j :=
  lastJW_main tol p j l none (Or.inl rfl) (Or.inl hmem) hlt huniq

/-- C8: for every displaced polyline (with at least two vertices), an
original endpoint lying within snap tolerance of a (unique such) junction
point forces the corresponding endpoint of the displaced polyline to
exactly that junction coordinate, while every interior vertex of the
displaced polyline is left unchanged (still translated by the full
displacement vector), and the vertex count is preserved. -/
theorem claim_C8_snap (tol : ℝ) (displaced original junctions : List Pt)
    (hlen : 2 ≤ displaced.length) :
    (∀ j ∈ junctions, ptDist (original.headD (0, 0)) j < tol →
      (∀ x ∈ junctions, ptDist (original.headD (0, 0)) x < tol → x = j) →
      (snap_endpoints_to_junctions tol displaced original junctions)[0]? = some j) ∧
    (∀ j ∈ junctions, ptDist (original.getLastD (0, 0)) j < tol →
      (∀ x ∈ junctions, ptDist (original.getLastD (0, 0)) x < tol → x = j) →
      (snap_endpoints_to_junctions tol displaced original junctions)[displaced.length - 1]? =
        some j) ∧
    (∀ i : ℕ, 0 < i → i + 1 < displaced.length →
      (snap_endpoints_to_junctions tol displaced original junctions)[i]? = displaced[i]?) ∧
    (snap_endpoints_to_junctions tol displaced original junctions).length =
      displaced.length := by
  have h0 : 0 < displaced.length := by omega
  refine ⟨?_, ?_, ?_, ?_⟩
  · intro j hjm hjd hju
    have hs : lastJunctionWithin tol (original.headD (0, 0)) junctions = some j :=
      lastJunctionWithin_eq hjm hjd hju
    rw [snap_endpoints_to_junctions]
    simp only [hs]
    cases h2 : lastJunctionWithin tol (original.getLastD (0, 0)) junctions with
    | none =>
      simp only []
      exact List.getElem?_set_self h0
    | some j2 =>
      simp only [setLast, List.length_set]
      rw [List.getElem?_set_ne (by omega)]
      exact List.getElem?_set_self h0
  · intro j hjm hjd hju
    have hs : lastJunctionWithin tol (original.getLastD (0, 0)) junctions = some j :=
      lastJunctionWithin_eq hjm hjd hju
    rw [snap_endpoints_to_junctions]
    simp only [hs]
    cases h2 : lastJunctionWithin tol (original.headD (0, 0)) junctions with
    | none =>
      simp only [setLast]
      exact List.getElem?_set_self (by omega)
    | some j1 =>
      simp only [setLast, List.length_set]
      exact List.getElem?_set_self (by simp; omega)
  · intro i hi hi2
    rw [snap_endpoints_to_junctions]
    cases h1 : lastJunctionWithin tol (original.headD (0, 0)) junctions with
    | none =>
      cases h2 : lastJunctionWithin tol (original.getLastD (0, 0)) junctions with
      | none => simp only []
      | some j2 =>
        simp only [setLast]
        rw [List.getElem?_set_ne (by omega)]
    | some j1 =>
      cases h2 : lastJunctionWithin tol (original.getLastD (0, 0)) junctions with
      | none =>
        simp only []
        rw [List.getElem?_set_ne (by omega)]
      | some j2 =>
        simp only [setLast, List.length_set]
        rw [List.getElem?_set_ne (by omega), List.getElem?_set_ne (by omega)]
  · rw [snap_endpoints_to_junctions]
    cases h1 : lastJunctionWithin tol (original.headD (0, 0)) junctions with
    | none =>
      cases h2 : lastJunctionWithin tol (original.getLastD (0, 0)) junctions with
      | none => simp only []
      | some j2 => simp [setLast]
    | some j1 =>
      cases h2 : lastJunctionWithin tol (original.getLastD (0, 0)) junctions with
      | none => simp [setLast]
      | some j2 => simp [setLast]

/-- C8 witness: the snapping theorem at a concrete three-vertex polyline
displaced by `(1, 1)` with a single junction at the original start. -/
theorem claim_C8_witness :
    (∀ j ∈ [((0 : ℝ), (0 : ℝ))],
      ptDist (([((0 : ℝ), (0 : ℝ)), (3, 0), (5, 0)]).headD (0, 0)) j < 0.1 →
      (∀ x ∈ [((0 : ℝ), (0 : ℝ))],
        ptDist (([((0 : ℝ), (0 : ℝ)), (3, 0), (5, 0)]).headD (0, 0)) x < 0.1 → x = j) →
      (snap_endpoints_to_junctions 0.1 [((1 : ℝ), (1 : ℝ)), (4, 1), (6, 1)]
        [((0 : ℝ), (0 : ℝ)), (3, 0), (5, 0)] [((0 : ℝ), (0 : ℝ))])[0]? = some j) ∧
    (∀ j ∈ [((0 : ℝ), (0 : ℝ))],
      ptDist (([((0 : ℝ), (0 : ℝ)), (3, 0), (5, 0)]).getLastD (0, 0)) j < 0.1 →
      (∀ x ∈ [((0 : ℝ), (0 : ℝ))],
        ptDist (([((0 : ℝ), (0 : ℝ)), (3, 0), (5, 0)]).getLastD (0, 0)) x < 0.1 → x = j) →
      (snap_endpoints_to_junctions 0.1 [((1 : ℝ), (1 : ℝ)), (4, 1), (6, 1)]
        [((0 : ℝ), (0 : ℝ)), (3, 0), (5, 0)]
        [((0 : ℝ), (0 : ℝ))])[([((1 : ℝ), (1 : ℝ)), (4, 1), (6, 1)]).length - 1]? = some j) ∧
    (∀ i : ℕ, 0 < i → i + 1 < ([((1 : ℝ), (1 : ℝ)), (4, 1), (6, 1)]).length →
      (snap_endpoints_to_junctions 0.1 [((1 : ℝ), (1 : ℝ)), (4, 1), (6, 1)]
        [((0 : ℝ), (0 : ℝ)), (3, 0), (5, 0)] [((0 : ℝ), (0 : ℝ))])[i]? =
        ([((1 : ℝ), (1 : ℝ)), (4, 1), (6, 1)])[i]?) ∧
    (snap_endpoints_to_junctions 0.1 [((1 : ℝ), (1 : ℝ)), (4, 1), (6, 1)]
      [((0 : ℝ), (0 : ℝ)), (3, 0), (5, 0)] [((0 : ℝ), (0 : ℝ))]).length =
      ([((1 : ℝ), (1 : ℝ)), (4, 1), (6, 1)]).length :=
  claim_C8_snap 0.1 [((1 : ℝ), (1 : ℝ)), (4, 1), (6, 1)]
    [((0 : ℝ), (0 : ℝ)), (3, 0), (5, 0)] [((0 : ℝ), (0 : ℝ))] (by simp)

/-! ## Claim C9 -/

/-- C9: `validate_topology` returns `true` iff, for every junction derived
from the original features — i.e. every quantised endpoint coordinate
shared by at least 2 registered endpoint entries — at least 2 result
geometries have a start or end point within snap tolerance of that
junction coordinate; the result is a single boolean for the whole batch. -/
theorem claim_C9_validate (tol : ℝ) (orig : List FeatureR) (displaced : List (List Pt)) :
    (validate_topology tol orig displaced = true ↔
      ∀ jp ∈ find_junctions orig,
        2 ≤ displaced.countP (fun g =>
          decide (ptDist (g.headD (0, 0)) jp < tol ∨ ptDist (g.getLastD (0, 0)) jp < tol))) ∧
    (∀ k : Pt, k ∈ find_junctions orig ↔
      k ∈ endpointEntries orig ∧ 2 ≤ countKey (endpointEntries orig) k) := by
  constructor
  · simp only [validate_topology, List.all_eq_true, decide_eq_true_eq]
  · intro k
    simp only [find_junctions, List.mem_filter, List.mem_dedup, decide_eq_true_eq]

/-! ## Claim C3 -/

lemma find_eq_some_of_mem {β : Type} {l : List (String × β)} {a : String × β}
    (ha : a ∈ l) (hnd : (l.map Prod.fst).Nodup) :
    l.find? (fun e => e.1 == a.1) = some a := by
  induction l with
  | nil => cases ha
  | cons x xs ih =>
    have hnd1 : (x.1 :: xs.map Prod.fst).Nodup := by simpa using hnd
    have hnd2 := List.nodup_cons.mp hnd1
    rcases List.mem_cons.mp ha with h | h
    · subst h
      exact List.find?_cons_of_pos _ (by simp)
    · have hne : ¬((fun e : String × β => e.1 == a.1) x = true) := by
        simp only [beq_iff_eq]
        intro heq
        exact hnd2.1 (heq ▸ List.mem_map_of_mem Prod.fst h)
      rw [show List.find? (fun e : String × β => e.1 == a.1) (x :: xs) =
          List.find? (fun e : String × β => e.1 == a.1) xs from
        List.find?_cons_of_neg _ hne]
      exact ih h hnd2.2

lemma accumulate_keys (dvecs : List (String × List Pt)) :
    (accumulate_displacements dvecs).map Prod.fst = dvecs.map Prod.fst := by
  simp [accumulate_displacements, List.map_map]

lemma abs_fst_le_mag (v : Pt) : |v.1| ≤ calculate_displacement_magnitude v := by
  rw [calculate_displacement_magnitude, ← Real.sqrt_sq_eq_abs]
  exact Real.sqrt_le_sqrt (by nlinarith [sq_nonneg v.2])

lemma abs_snd_le_mag (v : Pt) : |v.2| ≤ calculate_displacement_magnitude v := by
  rw [calculate_displacement_magnitude, ← Real.sqrt_sq_eq_abs]
  exact Real.sqrt_le_sqrt (by nlinarith [sq_nonneg v.1])

lemma repulsion_eval (s : ℝ) (l1 l2 : List Pt) (c1 c2 : Pt) (d : ℝ)
    (h1 : lineCentroid l1 = c1) (h2 : lineCentroid l2 = c2)
    (hd : Real.sqrt ((c2.1 - c1.1) ^ 2 + (c2.2 - c1.2) ^ 2) = d) (hge : ¬(d < 0.01)) :
    calculate_repulsion_vector s l1 l2 =
      ((c2.1 - c1.1) / d * (s / (d + 0.1)), (c2.2 - c1.2) / d * (s / (d + 0.1))) := by
  rw [calculate_repulsion_vector, h1, h2, hd, if_neg hge]

lemma centA : lineCentroid featA.coords = (5, 0) := by
  have hdA : ptDist ((0 : ℝ), (0 : ℝ)) ((10 : ℝ), (0 : ℝ)) = 10 := by
    rw [ptDist_eval]; exact sqrt_eval (by norm_num) (by norm_num)
  rw [show featA.coords = [((0 : ℝ), (0 : ℝ)), ((10 : ℝ), (0 : ℝ))] from rfl,
    lineCentroid_pair _ _ (by rw [hdA]; norm_num)]
  norm_num

lemma centB : lineCentroid featB.coords = (5, 2) := by
  have hdB : ptDist ((0 : ℝ), (2 : ℝ)) ((10 : ℝ), (2 : ℝ)) = 10 := by
    rw [ptDist_eval]; exact sqrt_eval (by norm_num) (by norm_num)
  rw [show featB.coords = [((0 : ℝ), (2 : ℝ)), ((10 : ℝ), (2 : ℝ))] from rfl,
    lineCentroid_pair _ _ (by rw [hdB]; norm_num)]
  norm_num

lemma repAB0 : calculate_repulsion_vector 0 featA.coords featB.coords = (0, 0) := by
  rw [repulsion_eval 0 featA.coords featB.coords (5, 0) (5, 2) 2 centA centB
    (sqrt_eval (by norm_num) (by norm_num)) (by norm_num)]
  norm_num

lemma pairAB0 : calculate_displacement_for_pair 0 featA featB 2 = (0, 0) := by
  rw [calculate_displacement_for_pair, repAB0]
  norm_num

/-- C3 counterexample: in the pipeline actually served by the API
(`GeometryProcessor._calculate_displacements`), there is NO epsilon
threshold: with `force_strength = 0` (an admissible request value), the
mover `B` of the conflict `(A, B)` receives the net accumulated vector
`(0, 0)` of magnitude `0 <= 0.001`, yet it is reported displaced
(`was_displaced = true`) — contradicting "a feature whose net accumulated
vector has magnitude at most 0.001 ... is not reported as displaced". -/
theorem claim_C3_counterexample :
    (calculate_displacements 0 2 [featA, featB] [ovAB] []).map
        (fun r => (r.id, r.wasDisplaced, r.vector, r.magnitude)) =
      [("A", false, ((0 : ℝ), (0 : ℝ)), (0 : ℝ)), ("B", true, (0, 0), 0)] ∧
    calculate_displacement_magnitude ((0 : ℝ), 0) ≤ 0.001 := by
  constructor
  · have hfA : [ovAB].filter (fun o => get_conflict_priority o == featA.id) = [] := by rfl
    have hfB : [ovAB].filter (fun o => get_conflict_priority o == featB.id) = [ovAB] := by rfl
    have hA : calcDispOne 0 2 [featA, featB] [ovAB] [] featA =
        ⟨"A", featA.coords, featA.coords, false, (0, 0), 0, []⟩ := by
      rw [calcDispOne, hfA]
      rfl
    have hff : findFeature [featA, featB] "A" = featA := by rfl
    have hB : (calcDispOne 0 2 [featA, featB] [ovAB] [] featB).id = "B" ∧
        (calcDispOne 0 2 [featA, featB] [ovAB] [] featB).wasDisplaced = true ∧
        (calcDispOne 0 2 [featA, featB] [ovAB] [] featB).vector = (0, 0) ∧
        (calcDispOne 0 2 [featA, featB] [ovAB] [] featB).magnitude = 0 := by
      rw [calcDispOne, hfB]
      rw [if_neg (by simp)]
      simp only [displace_feature]
      rw [if_neg (by simp)]
      simp only [List.map_cons, List.map_nil]
      rw [show (if ovAB.pair.1 == featB.id then ovAB.pair.2 else ovAB.pair.1) = "A" from rfl,
        hff]
      rw [pairAB0]
      simp only [List.sum_cons, List.sum_nil]
      exact ⟨rfl, trivial, by norm_num, by norm_num⟩
    rw [calculate_displacements]
    simp only [List.map_cons, List.map_nil, hA]
    refine congrArg₂ List.cons rfl ?_
    refine congrArg₂ List.cons ?_ rfl
    rw [hB.1, hB.2.1, hB.2.2.1, hB.2.2.2]
  · rw [calculate_displacement_magnitude]
    norm_num

/-- C3 (amended): the 0.001 threshold exists only in the unused
`GeometryEngine.process_geometry` pipeline, where the accumulated vector
is applied only when a COMPONENT exceeds 0.001 — hence only when its
magnitude exceeds 0.001 — and a net vector of magnitude at most 0.001
leaves the feature with its original geometry and not reported displaced.
The served `GeometryProcessor` pipeline applies no threshold at all (see
the counterexample). -/
theorem claim_C3_amended (features : List FeatureR) (dvecs : List (String × List Pt))
    (junctions : List VJunction) (f : FeatureR)
    (hnd : (dvecs.map Prod.fst).Nodup) :
    ((engineResultFor features dvecs junctions f).1 = true →
      0.001 < calculate_displacement_magnitude (accVec dvecs f.id)) ∧
    (calculate_displacement_magnitude (accVec dvecs f.id) ≤ 0.001 →
      engineResultFor features dvecs junctions f = (false, f.coords)) := by
  have hndacc : ((accumulate_displacements dvecs).map Prod.fst).Nodup := by
    rw [accumulate_keys]; exact hnd
  have key : ∀ e, (engineCorrected features dvecs junctions).find? (fun x => x.1 == f.id) =
      some e → 0.001 < calculate_displacement_magnitude (accVec dvecs f.id) := by
    intro e hfind
    have hmem := List.mem_of_find?_eq_some hfind
    have hpred := List.find?_some hfind
    have hid : e.1 = f.id := by simpa using hpred
    rw [engineCorrected] at hmem
    rcases List.mem_filterMap.mp hmem with ⟨a, hamem, hae⟩
    by_cases hcond : 0.001 < |a.2.1| ∨ 0.001 < |a.2.2|
    · rw [if_pos hcond] at hae
      have hae2 := Option.some.inj hae
      have ha1 : a.1 = f.id := by rw [← hid, ← hae2]
      have hacc : (accumulate_displacements dvecs).find? (fun x => x.1 == a.1) = some a :=
        find_eq_some_of_mem hamem hndacc
      have haccf : accVec dvecs f.id = a.2 := by
        rw [accVec, ← ha1, hacc]
        rfl
      rw [haccf]
      rcases hcond with hc | hc
      · exact lt_of_lt_of_le hc (abs_fst_le_mag a.2)
      · exact lt_of_lt_of_le hc (abs_snd_le_mag a.2)
    · rw [if_neg hcond] at hae
      exact absurd hae (by simp)
  constructor
  · intro hdisp
    rw [engineResultFor] at hdisp
    cases hfind : (engineCorrected features dvecs junctions).find? (fun x => x.1 == f.id) with
    | none =>
      rw [hfind] at hdisp
      simp at hdisp
    | some e => exact key e hfind
  · intro hmag
    rw [engineResultFor]
    cases hfind : (engineCorrected features dvecs junctions).find? (fun x => x.1 == f.id) with
    | none => rfl
    | some e => exact absurd (key e hfind) (not_lt.mpr hmag)

/-- C3 witness: the amended threshold theorem at a concrete feature whose
single recorded vector is `(1, 0)`. -/
theorem claim_C3_witness :
    ((engineResultFor [featA] [("A", [((1 : ℝ), (0 : ℝ))])] [] featA).1 = true →
      0.001 < calculate_displacement_magnitude (accVec [("A", [((1 : ℝ), (0 : ℝ))])] featA.id)) ∧
    (calculate_displacement_magnitude (accVec [("A", [((1 : ℝ), (0 : ℝ))])] featA.id) ≤ 0.001 →
      engineResultFor [featA] [("A", [((1 : ℝ), (0 : ℝ))])] [] featA = (false, featA.coords)) :=
  claim_C3_amended [featA] [("A", [((1 : ℝ), (0 : ℝ))])] [] featA (by simp)

/-! ## Claim C1 -/

lemma pair_eval (s D : ℝ) (fixed moving : FeatureR) (v : Pt) (m : ℝ)
    (hv : calculate_repulsion_vector s fixed.coords moving.coords = v)
    (hm : Real.sqrt (v.1 ^ 2 + v.2 ^ 2) = m) (hpos : 0 < m) :
    calculate_displacement_for_pair s fixed moving D = (v.1 * (D / m), v.2 * (D / m)) := by
  rw [calculate_displacement_for_pair, hv, hm, if_pos hpos]

lemma repAB1 : calculate_repulsion_vector 1 featA.coords featB.coords = (0, 10 / 21) := by
  rw [repulsion_eval 1 featA.coords featB.coords (5, 0) (5, 2) 2 centA centB
    (sqrt_eval (by norm_num) (by norm_num)) (by norm_num)]
  norm_num

lemma pairAB1 : calculate_displacement_for_pair 1 featA featB 2 = (0, 2) := by
  rw [pair_eval 1 2 featA featB (0, 10 / 21) (10 / 21) repAB1
    (sqrt_eval (by norm_num) (by norm_num)) (by norm_num)]
  norm_num

/-- C1 counterexample: in the three-feature chain `A (P1), B (P2), C (P3)`
with conflicts `(A,B)`, `(A,C)` and `(B,C)`, feature `B` is the
higher-priority feature of the conflict `(B,C)` (rank 2 < rank 3) and is
indeed not that conflict's mover — yet `B` is displaced (for the conflict
`(A,B)`), so its corrected geometry in the process result differs from its
original geometry.  The claim's "its corrected geometry equals its
original geometry" therefore fails as stated. -/
theorem claim_C1_counterexample :
    rankOf ovBC.pri.1 < rankOf ovBC.pri.2 ∧
    get_conflict_priority ovBC ≠ "B" ∧
    ovBC.pair.1 = "B" ∧
    ovBC ∈ ovsABC ∧
    featB.id = "B" ∧
    (calcDispOne 1 2 parsedABC ovsABC [] featB).wasDisplaced = true ∧
    (calcDispOne 1 2 parsedABC ovsABC [] featB).displaced = [((0 : ℝ), 4), (10, 4)] ∧
    (calcDispOne 1 2 parsedABC ovsABC [] featB).original = [((0 : ℝ), 2), (10, 2)] ∧
    ([((0 : ℝ), 4), (10, 4)] : List Pt) ≠ [((0 : ℝ), 2), (10, 2)] ∧
    calcDispOne 1 2 parsedABC ovsABC [] featB ∈
      calculate_displacements 1 2 parsedABC ovsABC [] := by
  have hfB1 : ovsABC.filter (fun o => get_conflict_priority o == featB.id) = [ovAB] := by rfl
  have hffA : findFeature parsedABC "A" = featA := by rfl
  have hmap : featB.coords.map (fun p : Pt => (p.1 + ((0 : ℝ) + 0), p.2 + ((2 : ℝ) + 0))) =
      [((0 : ℝ), 4), (10, 4)] := by
    rw [show featB.coords = [((0 : ℝ), (2 : ℝ)), ((10 : ℝ), (2 : ℝ))] from rfl]
    simp only [List.map_cons, List.map_nil]
    norm_num
  have hcore : (calcDispOne 1 2 parsedABC ovsABC [] featB).wasDisplaced = true ∧
      (calcDispOne 1 2 parsedABC ovsABC [] featB).displaced = [((0 : ℝ), 4), (10, 4)] ∧
      (calcDispOne 1 2 parsedABC ovsABC [] featB).original = [((0 : ℝ), 2), (10, 2)] := by
    rw [calcDispOne, hfB1]
    rw [if_neg (by simp)]
    simp only [List.map_cons, List.map_nil]
    rw [show (if ovAB.pair.1 == featB.id then ovAB.pair.2 else ovAB.pair.1) = "A" from rfl,
      hffA]
    simp only [displace_feature]
    rw [if_neg (by simp)]
    simp only [List.map_cons, List.map_nil]
    rw [pairAB1]
    simp only [List.sum_cons, List.sum_nil]
    refine ⟨trivial, ?_, rfl⟩
    rw [hmap]
    rfl
  refine ⟨by decide, by decide, rfl, by decide, rfl, hcore.1, hcore.2.1, hcore.2.2, ?_, ?_⟩
  · intro h
    simp only [List.cons.injEq, Prod.mk.injEq] at h
    norm_num at h
  · rw [calculate_displacements]
    exact List.mem_map_of_mem _ (by simp [parsedABC])

/-- C1 (amended): for EVERY conflict between features of different
priority ranks — whichever member of the pair is stored first — the mover
chosen by `get_conflict_priority` is the lower-priority feature (the
second id when the first member has the lower rank, the first id when the
second member has the lower rank), so the higher-priority feature is
never that conflict's mover; and PROVIDED the higher-priority feature is
not the mover of any other conflict in the batch, its corrected geometry
in the process result equals its original geometry and it is reported
undisplaced. -/
theorem claim_C1_amended (s mc : ℝ) (parsed : List FeatureR) (overlaps : List Overlap)
    (junctions : List Pt) (o : Overlap) (f : FeatureR)
    (ho : o ∈ overlaps) (hrank : rankOf o.pri.1 ≠ rankOf o.pri.2)
    (hids : o.pair.1 ≠ o.pair.2)
    (hf : f ∈ parsed)
    (hid : f.id = if rankOf o.pri.1 < rankOf o.pri.2 then o.pair.1 else o.pair.2)
    (hnm : ∀ o2 ∈ overlaps, get_conflict_priority o2 ≠ f.id) :
    (rankOf o.pri.1 < rankOf o.pri.2 → get_conflict_priority o = o.pair.2) ∧
    (rankOf o.pri.2 < rankOf o.pri.1 → get_conflict_priority o = o.pair.1) ∧
    get_conflict_priority o ≠ f.id ∧
    calcDispOne s mc parsed overlaps junctions f =
      ⟨f.id, f.coords, f.coords, false, (0, 0), 0, []⟩ ∧
    (⟨f.id, f.coords, f.coords, false, (0, 0), 0, []⟩ : DispResult) ∈
      calculate_displacements s mc parsed overlaps junctions := by
  have hone : calcDispOne s mc parsed overlaps junctions f =
      ⟨f.id, f.coords, f.coords, false, (0, 0), 0, []⟩ := by
    have hfil : overlaps.filter (fun o2 => get_conflict_priority o2 == f.id) = [] := by
      rw [List.filter_eq_nil_iff]
      intro a ha
      simp only [beq_iff_eq]
      exact hnm a ha
    rw [calcDispOne, hfil]
    rfl
  have hmem : (⟨f.id, f.coords, f.coords, false, (0, 0), 0, []⟩ : DispResult) ∈
      calculate_displacements s mc parsed overlaps junctions := by
    rw [calculate_displacements, ← hone]
    exact List.mem_map_of_mem _ hf
  rcases Nat.lt_or_ge (rankOf o.pri.1) (rankOf o.pri.2) with hlt | hge
  · have hgcp : get_conflict_priority o = o.pair.2 := by
      rw [get_conflict_priority, if_pos hlt]
    have hid2 : f.id = o.pair.1 := by rw [hid, if_pos hlt]
    refine ⟨fun _ => hgcp, fun h21 => absurd hlt (Nat.lt_asymm h21), ?_, hone, hmem⟩
    rw [hgcp, hid2]
    exact fun h => hids h.symm
  · have h21 : rankOf o.pri.2 < rankOf o.pri.1 :=
      lt_of_le_of_ne hge (fun h => hrank h.symm)
    have hnlt : ¬(rankOf o.pri.1 < rankOf o.pri.2) := Nat.not_lt.mpr hge
    have hgcp : get_conflict_priority o = o.pair.1 := by
      rw [get_conflict_priority, if_neg hnlt, if_pos h21]
    have hid2 : f.id = o.pair.2 := by rw [hid, if_neg hnlt]
    refine ⟨fun h => absurd h hnlt, fun _ => hgcp, ?_, hone, hmem⟩
    rw [hgcp, hid2]
    exact hids

/-- C1 witness: the amended priority theorem applied in BOTH pair
orientations — the conflict `(A, B)` with the higher-priority feature `A`
stored first, and the mirrored conflict `(B, A)` with `A` stored second
(the `priority2 < priority1` branch); in each batch `A` movers no
conflict. -/
theorem claim_C1_witness :
    ((rankOf ovAB.pri.1 < rankOf ovAB.pri.2 → get_conflict_priority ovAB = ovAB.pair.2) ∧
      (rankOf ovAB.pri.2 < rankOf ovAB.pri.1 → get_conflict_priority ovAB = ovAB.pair.1) ∧
      get_conflict_priority ovAB ≠ featA.id ∧
      calcDispOne 1 2 parsedABC ovsABC [] featA =
        ⟨featA.id, featA.coords, featA.coords, false, (0, 0), 0, []⟩ ∧
      (⟨featA.id, featA.coords, featA.coords, false, (0, 0), 0, []⟩ : DispResult) ∈
        calculate_displacements 1 2 parsedABC ovsABC []) ∧
    ((rankOf ovBA.pri.1 < rankOf ovBA.pri.2 → get_conflict_priority ovBA = ovBA.pair.2) ∧
      (rankOf ovBA.pri.2 < rankOf ovBA.pri.1 → get_conflict_priority ovBA = ovBA.pair.1) ∧
      get_conflict_priority ovBA ≠ featA.id ∧
      calcDispOne 1 2 parsedABC [ovBA] [] featA =
        ⟨featA.id, featA.coords, featA.coords, false, (0, 0), 0, []⟩ ∧
      (⟨featA.id, featA.coords, featA.coords, false, (0, 0), 0, []⟩ : DispResult) ∈
        calculate_displacements 1 2 parsedABC [ovBA] []) :=
  ⟨claim_C1_amended 1 2 parsedABC ovsABC [] ovAB featA (by decide) (by decide) (by decide)
      (by simp [parsedABC]) (by decide) (by decide),
    claim_C1_amended 1 2 parsedABC [ovBA] [] ovBA featA (by decide) (by decide) (by decide)
      (by simp [parsedABC]) (by decide) (by decide)⟩

/-! ## Claim C4 -/

lemma atan2_bounds (y x : ℝ) : -Real.pi < atan2 y x ∧ atan2 y x ≤ Real.pi := by
  have hpi := Real.pi_pos
  rw [atan2]
  split_ifs with h1 h2 h3 h4 h5
  · exact ⟨by linarith [Real.neg_pi_div_two_lt_arctan (y / x)],
      by linarith [Real.arctan_lt_pi_div_two (y / x)]⟩
  · have hyx : y / x ≤ 0 := div_nonpos_iff.mpr (Or.inl ⟨h3, h2.le⟩)
    have harc : Real.arctan (y / x) ≤ 0 := by
      have := Real.arctan_strictMono.monotone hyx
      rwa [Real.arctan_zero] at this
    exact ⟨by linarith [Real.neg_pi_div_two_lt_arctan (y / x)], by linarith⟩
  · have hy : y < 0 := lt_of_not_le h3
    have hyx : 0 < y / x := div_pos_of_neg_of_neg hy h2
    have harc : 0 < Real.arctan (y / x) := by
      have := Real.arctan_strictMono hyx
      rwa [Real.arctan_zero] at this
    exact ⟨by linarith, by linarith [Real.arctan_lt_pi_div_two (y / x)]⟩
  · exact ⟨by linarith, by linarith⟩
  · exact ⟨by linarith, by linarith⟩
  · exact ⟨by linarith, by linarith⟩

lemma orientation_bounds (coords : List Pt) :
    -180 < get_orientation coords ∧ get_orientation coords ≤ 180 := by
  rw [get_orientation]
  obtain ⟨hl, hu⟩ := atan2_bounds
    ((coords.getLastD (0, 0)).2 - (coords.headD (0, 0)).2)
    ((coords.getLastD (0, 0)).1 - (coords.headD (0, 0)).1)
  have hpos : 0 < 180 / Real.pi := by positivity
  constructor
  · have h := mul_lt_mul_of_pos_left hl hpos
    have he : 180 / Real.pi * -Real.pi = -180 := by
      field_simp
    linarith
  · have h := mul_le_mul_of_nonneg_left hu hpos.le
    have he : 180 / Real.pi * Real.pi = 180 := by
      field_simp
    linarith

lemma folded_bounds {a1 a2 : ℝ} (h1 : -180 < a1) (h1u : a1 ≤ 180)
    (h2 : -180 < a2) (h2u : a2 ≤ 180) :
    -180 < min |a1 - a2| (180 - |a1 - a2|) ∧ min |a1 - a2| (180 - |a1 - a2|) ≤ 90 := by
  have h0 : 0 ≤ |a1 - a2| := abs_nonneg _
  have hlt : |a1 - a2| < 360 := by
    rw [abs_lt]
    constructor <;> linarith
  constructor
  · apply lt_min <;> linarith
  · rcases le_total |a1 - a2| 90 with h | h
    · exact le_trans (min_le_left _ _) h
    · exact le_trans (min_le_right _ _) (by linarith)

lemma atan2_eval_q2 : atan2 1 (-1) = 3 * Real.pi / 4 := by
  rw [atan2]
  rw [if_neg (by norm_num), if_pos (by norm_num), if_pos (by norm_num)]
  rw [show (1 : ℝ) / (-1) = -1 by norm_num, show ((-1 : ℝ)) = -(1 : ℝ) by norm_num,
    Real.arctan_neg, Real.arctan_one]
  ring

lemma atan2_eval_q3 : atan2 (-1) (-1) = -(3 * Real.pi / 4) := by
  rw [atan2]
  rw [if_neg (by norm_num), if_pos (by norm_num), if_neg (by norm_num)]
  rw [show (-1 : ℝ) / (-1) = 1 by norm_num, Real.arctan_one]
  ring

lemma or_featP1 : get_orientation featP1.coords = 135 := by
  have hp : get_orientation featP1.coords = 180 / Real.pi * atan2 1 (-1) := by
    rw [get_orientation]
    rw [show (featP1.coords.getLastD (0, 0)) = ((-1 : ℝ), (1 : ℝ)) from rfl,
      show (featP1.coords.headD (0, 0)) = ((0 : ℝ), (0 : ℝ)) from rfl]
    norm_num
  rw [hp, atan2_eval_q2]
  field_simp
  ring

lemma or_featP2 : get_orientation featP2.coords = -135 := by
  have hp : get_orientation featP2.coords = 180 / Real.pi * atan2 (-1) (-1) := by
    rw [get_orientation]
    rw [show (featP2.coords.getLastD (0, 0)) = ((-1 : ℝ), (-1 : ℝ)) from rfl,
      show (featP2.coords.headD (0, 0)) = ((0 : ℝ), (0 : ℝ)) from rfl]
    norm_num
  rw [hp, atan2_eval_q3]
  field_simp
  ring

/-- C4 counterexample: for the two-vertex polylines with bearings 135 and
-135 degrees (which are geometrically PERPENDICULAR), the raw bearing
difference is 270 and the code's reflex fold `min(d, 180 - d)` yields
`-90`, which does NOT lie in the interval `[0, 90]` — the claimed
normalisation into `[0°, 90°]` fails whenever the raw difference exceeds
180 degrees. -/
theorem claim_C4_counterexample :
    2 ≤ featP1.coords.length ∧ 2 ≤ featP2.coords.length ∧
    (check_parallel_conflict 2 featP1 featP2).2.1 = -90 ∧
    ¬(0 ≤ (check_parallel_conflict 2 featP1 featP2).2.1) := by
  have hmain : (check_parallel_conflict 2 featP1 featP2).2.1 = -90 := by
    rw [check_parallel_conflict, if_neg (by norm_num [featP1, featP2]), or_featP1, or_featP2]
    norm_num [min_def]
    by_cases hd : lineDist featP1.coords featP2.coords < required_clearance 2 featP1 featP2
    · simp [hd]
    · simp [hd]
  refine ⟨by norm_num [featP1], by norm_num [featP2], hmain, ?_⟩
  rw [hmain]
  norm_num

/-- C4 (amended): for every pair of polylines with at least 2 vertices,
the check fires iff the computed angle difference is at most the 15-degree
threshold AND the minimum centerline distance is strictly below
`halfWidth(A) + halfWidth(B) + minClearance`; the computed angle
difference always lies in `(-180, 90]` — it lies in `[0, 90]` only when
the raw absolute bearing difference is at most 180, and is negative when
that difference exceeds 180. -/
theorem claim_C4_amended (mc : ℝ) (f1 f2 : FeatureR)
    (h1 : 2 ≤ f1.coords.length) (h2 : 2 ≤ f2.coords.length) :
    ((check_parallel_conflict mc f1 f2).1 ↔
      (check_parallel_conflict mc f1 f2).2.1 ≤ 15 ∧
      lineDist f1.coords f2.coords < required_clearance mc f1 f2) ∧
    -180 < (check_parallel_conflict mc f1 f2).2.1 ∧
    (check_parallel_conflict mc f1 f2).2.1 ≤ 90 := by
  have hnot : ¬(f1.coords.length < 2 ∨ f2.coords.length < 2) := by omega
  obtain ⟨hb1l, hb1u⟩ := orientation_bounds f1.coords
  obtain ⟨hb2l, hb2u⟩ := orientation_bounds f2.coords
  obtain ⟨hfl, hfu⟩ := folded_bounds hb1l hb1u hb2l hb2u
  rw [check_parallel_conflict, if_neg hnot]
  by_cases hth : min |get_orientation f1.coords - get_orientation f2.coords|
      (180 - |get_orientation f1.coords - get_orientation f2.coords|) ≤ 15
  · by_cases hdd : lineDist f1.coords f2.coords < required_clearance mc f1 f2
    · rw [if_pos hth, if_pos hdd]
      exact ⟨by simp [hth, hdd], hfl, hfu⟩
    · rw [if_pos hth, if_neg hdd]
      exact ⟨by simp [hdd], hfl, hfu⟩
  · rw [if_neg hth]
    exact ⟨by simp [hth], hfl, hfu⟩

/-- C4 witness: the amended parallel-check theorem at the concrete
perpendicular pair. -/
theorem claim_C4_witness :
    ((check_parallel_conflict 2 featP1 featP2).1 ↔
      (check_parallel_conflict 2 featP1 featP2).2.1 ≤ 15 ∧
      lineDist featP1.coords featP2.coords < required_clearance 2 featP1 featP2) ∧
    -180 < (check_parallel_conflict 2 featP1 featP2).2.1 ∧
    (check_parallel_conflict 2 featP1 featP2).2.1 ≤ 90 :=
  claim_C4_amended 2 featP1 featP2 (by norm_num [featP1]) (by norm_num [featP2])

/-! ## Claim C2 -/

/-- C2 counterexample: a single-feature batch (vacuously, no pair fires
any strategy) whose input WKT is `LINESTRING(0 0, 1 0)` — no space after
the tag.  The pipeline leaves the feature undisplaced with its geometry
unchanged, but `_build_results` re-serialises the corrected geometry
through the shapely writer, producing `LINESTRING (0 0, 1 0)`, which is
NOT character-identical to the serialized original (`original_wkt` is the
verbatim input string). -/
theorem claim_C2_counterexample :
    parse_wkt "LINESTRING(0 0, 1 0)" = Except.ok [((0 : ℚ), 0), (1, 0)] ∧
    featRT.coords = castPoly [((0 : ℚ), 0), (1, 0)] ∧
    detect_overlaps noChecks [featRT] = [] ∧
    calcDispOne 1 2 [featRT] (detect_overlaps noChecks [featRT]) [] featRT =
      ⟨featRT.id, featRT.coords, featRT.coords, false, (0, 0), 0, []⟩ ∧
    wktOut [((0 : ℚ), 0), (1, 0)] = "LINESTRING (0 0, 1 0)" ∧
    "LINESTRING (0 0, 1 0)" ≠ "LINESTRING(0 0, 1 0)" := by
  refine ⟨?_, rfl, rfl, rfl, ?_, by decide⟩
  · set_option maxRecDepth 10000 in
    simp [parse_wkt, parseCoords, parseNumber, skipSpaces, digitsToNat]
  · set_option maxRecDepth 10000 in
    simp [wktOut, ratToString, fracDigits, natToString, natDigits]
    norm_num
    decide

/-- C2 (amended): for every feature set in which no pair fires any of the
five detection strategies, the detector returns no conflicts and `process`
returns each feature with `wasDisplaced = false` and a corrected geometry
equal, as a coordinate sequence, to the original parsed geometry.  The
serialized corrected geometry is the normalised WKT re-serialisation of
that geometry, which is character-identical to the serialized original
only when the input string is already in normalised form (see the
counterexample). -/
theorem claim_C2_amended (k : Checks) (s mc : ℝ) (features : List FeatureR)
    (junctions : List Pt)
    (hno : ∀ p ∈ pairsOf features, (detect_all_conflicts k p.1 p.2).2 = false) :
    detect_overlaps k features = [] ∧
    calculate_displacements s mc features (detect_overlaps k features) junctions =
      features.map (fun f => ⟨f.id, f.coords, f.coords, false, (0, 0), 0, []⟩) := by
  have hempty : detect_overlaps k features = [] := by
    rw [detect_overlaps, List.filterMap_eq_nil]
    intro p hp
    simp [hno p hp]
  refine ⟨hempty, ?_⟩
  rw [hempty, calculate_displacements]
  have hfun : calcDispOne s mc features [] junctions =
      fun f => ⟨f.id, f.coords, f.coords, false, (0, 0), 0, []⟩ :=
    funext fun f => by rw [calcDispOne]; rfl
  rw [hfun]

/-- C2 witness: the amended no-conflict theorem on the one-feature batch
(for which the no-strategy-fires hypothesis holds vacuously). -/
theorem claim_C2_witness :
    detect_overlaps noChecks [featRT] = [] ∧
    calculate_displacements 1 2 [featRT] (detect_overlaps noChecks [featRT]) [] =
      [featRT].map (fun f => ⟨f.id, f.coords, f.coords, false, (0, 0), 0, []⟩) :=
  claim_C2_amended noChecks 1 2 [featRT] [] (by simp [pairsOf])

/-! ## Claim C10 -/

lemma parse_features_error (features : List (String × String))
    (hbad : ∃ f ∈ features, ∃ e, parse_wkt f.2 = Except.error e) :
    ∃ e, parse_features features = Except.error e := by
  induction features with
  | nil =>
    obtain ⟨f, hf, _⟩ := hbad
    cases hf
  | cons g rest ih =>
    obtain ⟨f, hf, e, he⟩ := hbad
    rw [parse_features]
    cases hg : parse_wkt g.2 with
    | error e2 => exact ⟨e2, rfl⟩
    | ok cs =>
      rcases List.mem_cons.mp hf with h | h
      · rw [h] at he
        rw [hg] at he
        cases he
      · obtain ⟨e2, he2⟩ := ih ⟨f, h, e, he⟩
        rw [he2]
        exact ⟨e2, rfl⟩

lemma parse_wkt_ok_length (s : String) (cs : List (ℚ × ℚ))
    (h : parse_wkt s = Except.ok cs) : cs.length ≠ 1 := by
  rw [parse_wkt] at h
  split at h
  · split at h
    · split at h
      · split at h
        · split at h
          · cases h
          · cases h
            assumption
        · cases h
      · cases h
    · dsimp only [] at h
      split at h
      · cases h
        simp
      · cases h
  · cases h

/-- C10 counterexample: the WKT string `LINESTRING EMPTY` decodes to a
linear path with 0 vertices (fewer than 2), yet `shapely.wkt.loads`
accepts it and `parse_wkt`'s `isinstance` check passes, so parsing does
NOT raise: the whole batch is processed past the parse stage.  The
claim's "if any feature's serialized geometry does not decode to a linear
path with at least 2 vertices, parsing raises an error" therefore fails
for the zero-vertex case. -/
theorem claim_C10_counterexample :
    parse_wkt "LINESTRING EMPTY" = Except.ok [] ∧
    ([] : List (ℚ × ℚ)).length < 2 ∧
    process_geometries (fun l => l) [("f1", "LINESTRING EMPTY")] =
      Except.ok [("f1", [])] := by
  refine ⟨by rfl, by decide, by rfl⟩

/-- C10 (amended): if any feature's serialized geometry fails to parse —
it is malformed, not a `LINESTRING`, or a one-vertex `LINESTRING` (the
parser never yields exactly one vertex) — the error propagates to the
caller and aborts processing for the whole batch before any detection or
displacement computation runs (the post-parse stages, abstracted as
`rest`, are never applied), and no result list is returned.  A zero-vertex
`LINESTRING EMPTY`, however, parses successfully (see the
counterexample). -/
theorem claim_C10_amended {α : Type} (rest : List (String × List (ℚ × ℚ)) → α)
    (features : List (String × String))
    (hbad : ∃ f ∈ features, ∃ e, parse_wkt f.2 = Except.error e) :
    (∃ e, process_geometries rest features = Except.error e) ∧
    (∀ res, process_geometries rest features ≠ Except.ok res) ∧
    (∀ s cs, parse_wkt s = Except.ok cs → cs.length ≠ 1) := by
  obtain ⟨e, he⟩ := parse_features_error features hbad
  have hproc : process_geometries rest features = Except.error e := by
    rw [process_geometries, he]
    rfl
  refine ⟨⟨e, hproc⟩, ?_, parse_wkt_ok_length⟩
  intro res hres
  rw [hproc] at hres
  cases hres

/-- C10 witness: the abort theorem for a batch containing a one-vertex
`LINESTRING`. -/
theorem claim_C10_witness :
    (∃ e, process_geometries (fun l => l) [("bad", "LINESTRING (5 5)")] = Except.error e) ∧
    (∀ res, process_geometries (fun l => l) [("bad", "LINESTRING (5 5)")] ≠ Except.ok res) ∧
    (∀ s cs, parse_wkt s = Except.ok cs → cs.length ≠ 1) :=
  claim_C10_amended (fun l => l) [("bad", "LINESTRING (5 5)")]
    ⟨("bad", "LINESTRING (5 5)"), by simp,
      "Invalid WKT: point array must contain 0 or more than 1 elements", by rfl⟩
